import Mathlib

/-
Verification of `lib/schedule_scraper.py` (BracketTeam schedule exporter).

The Python module is shallowly embedded below.  JSON values (the shapes the
`requests` library can hand back) are modelled by the inductive type `J`;
Python dictionaries are association lists `List (String × J)`; `dict.get`
returns `Option J` (with `none` playing the role of Python's `None` for a
missing key); Python truthiness is the function `truthy`.  Code that can
raise an uncaught exception is modelled in `Except Unit`; code that cannot
raise is modelled by total functions.  Network traffic is modelled by
scripts: `get_json` consumes a script of per-attempt outcomes, and the
pagination / orchestration layers consume lists of fetch results (one entry
per fetch performed, in order; an exhausted script behaves like a failed
fetch, i.e. `None`).

Time: `time.sleep` calls are recorded (the retry loop returns the list of
delays slept, as exact rationals — the Python float arithmetic
`1.5, 1.5*1.5, …` is exact in binary floating point for the two delays that
can occur, so ℚ is a faithful model).
-/

set_option autoImplicit false

namespace ScheduleScraper

/-- Module constant `MATCHES_PER_PAGE = 20`. -/
def MATCHES_PER_PAGE : Nat := 20

/-- Module constant `MAX_RETRIES = 3`. -/
def MAX_RETRIES : Nat := 3

/-- Module constant `BACKOFF = 1.5` (exact in ℚ). -/
def BACKOFF : ℚ := 3 / 2

/-- JSON-ish Python values: strings, integers, booleans, `None`, lists and
dicts (association lists, keys unique).  This covers every shape the code
inspects; other scalars (floats) never influence the modelled paths except
through truthiness, which `b`/`n` already exercise. -/
inductive J where
  | s (v : String)
  | n (v : Int)
  | b (v : Bool)
  | null
  | arr (elems : List J)
  | o (fields : List (String × J))

/-- A raw match record (a Python dict). -/
abbrev RawMatch := List (String × J)

/-- `d.get(k)`: first binding of `k`, `none` when absent. -/
def dictGet (d : List (String × J)) (k : String) : Option J :=
  match d with
  | [] => none
  | (k', v) :: rest => if k' = k then some v else dictGet rest k

/-- Python truthiness of a `J` value. -/
def truthy : J → Bool
  | .s v => v != ""
  | .n v => v != 0
  | .b v => v
  | .null => false
  | .arr l => !l.isEmpty
  | .o f => !f.isEmpty

/-- Truthiness of an optional value (`none` = Python `None`, falsy). -/
def truthyO : Option J → Bool
  | none => false
  | some j => truthy j

/-- Python `a or b` on two possibly-`None` values. -/
def pyOrO (a b : Option J) : Option J := if truthyO a then a else b

/-- Python `a or b` on two definite values. -/
def jOr (a b : J) : J := if truthy a then a else b

/-- Python `a or b` where `a` may be `None` and `b` is definite. -/
def pyOrJD (a : Option J) (b : J) : J :=
  match a with
  | some v => jOr v b
  | none => b

/-- The whitespace characters stripped by Python's `str.strip()`
(ASCII subset; the repository's data never contains the exotic ones). -/
def isSpaceChar (c : Char) : Bool :=
  c == ' ' || c == '\t' || c == '\n' || c == '\r' || c == '\x0b' || c == '\x0c'

/-- Drop trailing characters satisfying `p`. -/
def dropTrailing (p : Char → Bool) : List Char → List Char
  | [] => []
  | c :: cs =>
    let r := dropTrailing p cs
    if r.isEmpty && p c then [] else c :: r

/-- Python `str.strip()` on a character list. -/
def pyStripL (cs : List Char) : List Char :=
  dropTrailing isSpaceChar (cs.dropWhile isSpaceChar)

/-- Python `str.strip()`. -/
def pyStrip (s : String) : String := ⟨pyStripL s.data⟩

/-- Python `str(v)` as used in the f-string `f"Division {div_id}"`.
Containers would be rendered by their `repr`; no modelled path ever
formats a container, so those cases are left as `""`. -/
def pyStr : J → String
  | .s v => v
  | .n v => toString v
  | .b true => "True"
  | .b false => "False"
  | .null => "None"
  | .arr _ => ""
  | .o _ => ""

/-- Python `str(v)` for a possibly-`None` value. -/
def pyStrO : Option J → String
  | none => "None"
  | some j => pyStr j

/-- `first_nonempty(*values)`: the first argument that is a string with
non-whitespace content, stripped; `""` on total miss
(`schedule_scraper.py` lines 136–140). -/
def first_nonempty : List (Option J) → String
  | [] => ""
  | v :: rest =>
    match v with
    | some (J.s str) => if pyStrip str ≠ "" then pyStrip str else first_nonempty rest
    | _ => first_nonempty rest

/-- Loop body of `get_nested`: walk the key path, short-circuiting to the
default when the current value is not a dict; at the end return the value
only if it is a string (lines 143–151). -/
def getNestedGo (default : String) : Option J → List String → String
  | cur, [] =>
    match cur with
    | some (J.s v) => v
    | _ => default
  | cur, p :: ps =>
    match cur with
    | some (J.o f) => getNestedGo default (dictGet f p) ps
    | _ => default

/-- `get_nested(d, *path, default="")` (lines 143–151). -/
def get_nested (d : RawMatch) (path : List String) (default : String) : String :=
  getNestedGo default (some (J.o d)) path

/-- `extract_time` (lines 154–162). -/
def extract_time (m : RawMatch) : String :=
  first_nonempty
    [ dictGet m "start_date_time"
    , dictGet m "date"
    , dictGet m "start_time"
    , dictGet m "start_datetime" ]

/-- `extract_location` (lines 165–174). -/
def extract_location (m : RawMatch) : String :=
  first_nonempty
    [ some (J.s (get_nested m ["court", "venue", "name"] ""))
    , dictGet m "venue_name"
    , dictGet m "facility_name"
    , dictGet m "location"
    , some (J.s (get_nested m ["venue", "name"] ""))
    , some (J.s (get_nested m ["facility", "name"] ""))
    , some (J.s (get_nested m ["site", "name"] "")) ]

/-- `extract_court` (lines 177–185). -/
def extract_court (m : RawMatch) : String :=
  first_nonempty
    [ some (J.s (get_nested m ["court", "court_name"] ""))
    , dictGet m "court_name"
    , dictGet m "court"
    , dictGet m "field"
    , some (J.s (get_nested m ["court", "name"] ""))
    , some (J.s (get_nested m ["resource", "name"] "")) ]

/-- `obj.get(k) if isinstance(obj, dict) else None` (line 195). -/
def objGet (obj : Option J) (k : String) : Option J :=
  match obj with
  | some (J.o f) => dictGet f k
  | _ => none

/-- Fallback loop of `extract_team_name` (lines 194–197): for each key,
`obj.get(k) if isinstance(obj, dict) else None`, returning the first
stripped non-whitespace string. -/
def etnFallback (obj : Option J) : List String → String
  | [] => ""
  | k :: ks =>
    match objGet obj k with
    | some (J.s str) => if pyStrip str ≠ "" then pyStrip str else etnFallback obj ks
    | _ => etnFallback obj ks

/-- `extract_team_name(obj, fallback_keys)` (lines 188–198). -/
def extract_team_name (obj : Option J) (fallback_keys : List String) : String :=
  match obj with
  | some (J.o f) =>
    match pyOrO (dictGet f "name") (dictGet f "team_name") with
    | some (J.s name) =>
      if pyStrip name ≠ "" then pyStrip name else etnFallback obj fallback_keys
    | _ => etnFallback obj fallback_keys
  | _ => etnFallback obj fallback_keys

/-- `extract_home` (lines 201–211): nested `home_team` first
(`.get("name") or .get("team_name")`, Python `or`), then the flat keys. -/
def extract_home (m : RawMatch) : String :=
  match dictGet m "home_team" with
  | some (J.o ht) =>
    match pyOrO (dictGet ht "name") (dictGet ht "team_name") with
    | some (J.s v) =>
      if pyStrip v ≠ "" then pyStrip v
      else
        first_nonempty
          [dictGet m "home_name", dictGet m "homeTeamName", dictGet m "team_home_name"]
    | _ =>
      first_nonempty
        [dictGet m "home_name", dictGet m "homeTeamName", dictGet m "team_home_name"]
  | _ =>
    first_nonempty
      [dictGet m "home_name", dictGet m "homeTeamName", dictGet m "team_home_name"]

/-- `extract_away` (lines 214–223). -/
def extract_away (m : RawMatch) : String :=
  match dictGet m "away_team" with
  | some (J.o at_) =>
    match pyOrO (dictGet at_ "name") (dictGet at_ "team_name") with
    | some (J.s v) =>
      if pyStrip v ≠ "" then pyStrip v
      else
        first_nonempty
          [dictGet m "away_name", dictGet m "awayTeamName", dictGet m "team_away_name"]
    | _ =>
      first_nonempty
        [dictGet m "away_name", dictGet m "awayTeamName", dictGet m "team_away_name"]
  | _ =>
    first_nonempty
      [dictGet m "away_name", dictGet m "awayTeamName", dictGet m "team_away_name"]

/-- `startsWithL p cs`: `cs` begins with `p`. -/
def startsWithL : List Char → List Char → Bool
  | [], _ => true
  | _ :: _, [] => false
  | p :: ps, c :: cs => p == c && startsWithL ps cs

/-- Numeric value of a digit string (what `int` returns on it). -/
def digitsVal (cs : List Char) : Nat :=
  cs.foldl (fun a c => a * 10 + (c.toNat - 48)) 0

/-- The literal part of the pattern `/event/(\d+)/`. -/
def eventPat : List Char := "/event/".data

/-- One anchored attempt of `re.search(r"/event/(\d+)/", s)`: at this
position the text must read `/event/`, then one or more digits, then `/`.
(Backtracking inside `\d+` cannot help: every shorter digit run is
followed by a digit, not `/`, so the maximal run is the only candidate.) -/
def matchEventAt (cs : List Char) : Option Nat :=
  if startsWithL eventPat cs then
    let restCs := cs.drop eventPat.length
    let ds := restCs.takeWhile Char.isDigit
    if !ds.isEmpty && (restCs.drop ds.length).head? == some '/' then
      some (digitsVal ds)
    else none
  else none

/-- `re.search`: leftmost position where `matchEventAt` succeeds. -/
def findEventId : List Char → Option Nat
  | [] => none
  | c :: cs =>
    match matchEventAt (c :: cs) with
    | some n => some n
    | none => findEventId cs

/-- `parse_event_id` on the character list (lines 23–33): the URL pattern
first, else the trimmed string must be all digits, else `ValueError`
(modelled as `none`). -/
def parseEventIdL (cs : List Char) : Option Nat :=
  match findEventId cs with
  | some n => some n
  | none =>
    let t := pyStripL cs
    if !t.isEmpty && t.all Char.isDigit then some (digitsVal t) else none

/-- `parse_event_id` (lines 23–33). -/
def parse_event_id (s : String) : Option Nat := parseEventIdL s.data

/-- One scripted outcome of `session.get` inside `get_json`:
either `requests.RequestException` was raised, or a response arrived with
the given status code; `body = none` means `.json()` raises `ValueError`,
`body = some j` means it parses to `j`. -/
inductive Outcome where
  | exn
  | resp (status : Nat) (body : Option J)

/-- Line 56: `resp.status_code in (429,) or 500 <= resp.status_code < 600`. -/
def retryStatus (st : Nat) : Bool :=
  st == 429 || (500 ≤ st && st < 600)

/-- The retry loop of `get_json` (lines 49–78).  `outcomes` maps the attempt
number (1-based, as in the source) to what the network does on that attempt;
`k` is the number of retries still allowed, so that `k > 0` is exactly the
source's guard `attempt < MAX_RETRIES` when started with
`attempt = 1, k = MAX_RETRIES - 1` (the `k = 0` / `k + 1` cases below are
the two unrollings of that guard).  Result: (returned value, list of sleep
delays in order, total attempts made).  `resp.ok` is `status < 400`
(the `requests` library's definition). -/
def getJsonGo (o : Nat → Outcome) : Nat → Nat → ℚ → Option J × List ℚ × Nat
  | 0, attempt, _ =>
    (match o attempt with
    | .exn => (none, [], 1)
    | .resp st body =>
      if retryStatus st then (none, [], 1)
      else if st < 400 then (body, [], 1)
      else (none, [], 1))
  | k + 1, attempt, delay =>
    (match o attempt with
    | .exn =>
      let r := getJsonGo o k (attempt + 1) (delay * BACKOFF)
      (r.1, delay :: r.2.1, r.2.2 + 1)
    | .resp st body =>
      if retryStatus st then
        let r := getJsonGo o k (attempt + 1) (delay * BACKOFF)
        (r.1, delay :: r.2.1, r.2.2 + 1)
      else if st < 400 then (body, [], 1)
      else (none, [], 1))

/-- `get_json` (lines 44–78): `attempt` starts at 1 (incremented on entry),
`delay` starts at `BACKOFF`. -/
def get_json (outcomes : Nat → Outcome) : Option J × List ℚ × Nat :=
  getJsonGo outcomes (MAX_RETRIES - 1) 1 BACKOFF

/-- `cur.get(k, default)` where `cur` must be a dict (a non-dict raises
`AttributeError`, modelled as `Except.error`). -/
def pyGetD (cur : J) (k : String) (default : J) : Except Unit J :=
  match cur with
  | J.o f => .ok ((dictGet f k).getD default)
  | _ => .error ()

/-- `int(v)` on the shapes that can reach it: ints themselves, booleans,
and digit strings (optionally signed, surrounding whitespace tolerated);
anything else raises. -/
def pyInt (v : J) : Except Unit Int :=
  match v with
  | J.n i => .ok i
  | J.b true => .ok 1
  | J.b false => .ok 0
  | J.s str =>
    match pyStripL str.data with
    | [] => .error ()
    | '-' :: ds => if !ds.isEmpty && ds.all Char.isDigit then .ok (-(digitsVal ds : Int)) else .error ()
    | ds => if ds.all Char.isDigit then .ok (digitsVal ds) else .error ()
  | _ => .error ()

/-- The `for d in divisions` loop of `get_divisions` (lines 94–98).
A non-dict element raises at `d.get` (`.error`).  A record is skipped when
`d.get("id")` is `None` (key absent, or present with value `None`); the
name is `d.get("division_name") or d.get("name") or f"Division {div_id}"`
(Python `or`, so the name slot keeps whatever truthy value was found,
string or not — hence type `J`). -/
def divisionsLoop : List J → Except Unit (List (Int × J))
  | [] => .ok []
  | d :: ds =>
    match d with
    | J.o f =>
      let idO : Option J := dictGet f "id"
      let div_name : J :=
        pyOrJD (dictGet f "division_name")
          (pyOrJD (dictGet f "name") (J.s ("Division " ++ pyStrO idO)))
      match idO with
      | none => divisionsLoop ds
      | some J.null => divisionsLoop ds
      | some idv => do
        let i ← pyInt idv
        let rest ← divisionsLoop ds
        .ok ((i, div_name) :: rest)
    | _ => .error ()

/-- `get_divisions` (lines 83–99), given the result of its one `get_json`
call.  `data = get_json(...) or {}`; then
`data.get("content", {}).get("tournament", {}).get("divisions", [])`.
A `divisions` value that is not a list is modelled as an error: iterating
a dict/string yields keys/characters whose `.get` then raises — except for
the empty dict / empty string, a corner no claim touches. -/
def get_divisions (fetchResult : Option J) : Except Unit (List (Int × J)) := do
  let data : J := pyOrJD fetchResult (J.o [])
  let c ← pyGetD data "content" (J.o [])
  let t ← pyGetD c "tournament" (J.o [])
  let divs ← pyGetD t "divisions" (J.arr [])
  match divs with
  | J.arr l => divisionsLoop l
  | _ => .error ()

/-- Lines 122–123 of `iter_matches`: from one fetch result to the page's
match list.  `data = get_json(...) or {}`;
`matches = (data.get("content", {}) or {}).get("matches", []) or []`.
A truthy non-list `matches` is modelled as an error (Python would iterate
characters / dict keys and then fail in the extractors); no claim
exercises that corner. -/
def pageMatchesE (r : Option J) : Except Unit (List J) := do
  let data : J := pyOrJD r (J.o [])
  let c ← pyGetD data "content" (J.o [])
  let ms0 ← pyGetD (jOr c (J.o [])) "matches" (J.arr [])
  match jOr ms0 (J.arr []) with
  | J.arr l => .ok l
  | _ => .error ()

/-- `iter_matches` (lines 102–131) over the scripted fetch results for one
division (one entry per fetch, in order; an exhausted script behaves like a
failed fetch, which the source turns into an empty page).  Result: the
yielded matches in order, and the number of fetches performed.  The loop
breaks on an empty page, and after a page shorter than
`MATCHES_PER_PAGE`; otherwise it sleeps and fetches the next page. -/
def iter_matches : List (Option J) → Except Unit (List J × Nat)
  | [] => .ok ([], 1)
  | r :: rest => do
    let ms ← pageMatchesE r
    if ms.isEmpty then .ok ([], 1)
    else if ms.length < MATCHES_PER_PAGE then .ok (ms, 1)
    else do
      let p ← iter_matches rest
      .ok (ms ++ p.1, p.2 + 1)

/-- The hardcoded fallback token on line 230 of the source. -/
def DEFAULT_TOKEN : String :=
  "fB0SC4jghlUrszbzgFmHyAPeWvzwc5kWV3yhdP9xhs8ysLRkDDGpomh5gmqoZdAc"

/-- Python `a or b` on an optional string and a definite string
(an empty string is falsy). -/
def pyOrS (a : Option String) (b : String) : String :=
  match a with
  | some s => if s = "" then b else s
  | none => b

/-- Line 230: `token or os.environ.get("BRACKETTEAM_TOKEN") or "fB0…"`. -/
def resolveToken (cliToken envToken : Option String) : String :=
  pyOrS cliToken (pyOrS envToken DEFAULT_TOKEN)

/-- One output CSV row (the six columns, in header order). -/
structure ScheduleRow where
  game_start_time : String
  location : String
  court : String
  division : String
  home_team : String
  away_team : String
deriving DecidableEq

/-- The dict written by `w.writerow` (lines 251–258) for one match of a
division whose rendered name is `divName`. -/
def mkRow (divName : String) (m : RawMatch) : ScheduleRow :=
  ⟨extract_time m, extract_location m, extract_court m, divName,
    extract_home m, extract_away m⟩

/-- Inner loop of `run` (lines 250–259): one row per match yielded by the
paginator.  A non-dict match raises inside the extractors (`m.get`). -/
def rowsForMatches (divName : String) : List J → Except Unit (List ScheduleRow)
  | [] => .ok []
  | m :: ms =>
    match m with
    | J.o f => do
      let rest ← rowsForMatches divName ms
      .ok (mkRow divName f :: rest)
    | _ => .error ()

/-- Outer loop of `run` (lines 249–261): for each `(div_id, div_name)`
drain `iter_matches` (driven by that division's fetch script) and emit the
rows; `div_name` is rendered by the CSV writer via `str`. -/
def rowsForDivisions (schedule : Int → List (Option J)) :
    List (Int × J) → Except Unit (List ScheduleRow)
  | [] => .ok []
  | dv :: ds => do
    let p ← iter_matches (schedule dv.1)
    let rows1 ← rowsForMatches (pyStr dv.2) p.1
    let rest ← rowsForDivisions schedule ds
    .ok (rows1 ++ rest)

/-- `run(event_ref, out_csv, token)` (lines 228–264), with the network
scripted: `tournamentFetch` is the result of the tournament-endpoint call
and `schedule i` the fetch results of division `i`'s pagination.  Returns
the exit code and the rows written; `.error` models an uncaught exception
(the `ValueError` of `parse_event_id`, or a malformed payload). -/
def run (eventRef : String) (cliToken envToken : Option String)
    (tournamentFetch : Option J) (schedule : Int → List (Option J)) :
    Except Unit (Nat × List ScheduleRow) :=
  match parse_event_id eventRef with
  | none => .error ()
  | some _ =>
    let token := resolveToken cliToken envToken
    if token = "" then .ok (2, [])
    else do
      let divisions ← get_divisions tournamentFetch
      if divisions.isEmpty then .ok (1, [])
      else do
        let rows ← rowsForDivisions schedule divisions
        .ok (0, rows)

/-- Test-harness constructor: the canonical well-formed schedule-endpoint
response whose extracted match list is `ms`. -/
def mkResp (ms : List J) : Option J :=
  some (J.o [("content", J.o [("matches", J.arr ms)])])

/-- Test-harness constructor: a well-formed tournament-endpoint response
with two divisions. -/
def twoDivFetch (i1 : Int) (nm1 : String) (i2 : Int) (nm2 : String) : Option J :=
  some (J.o [("content", J.o [("tournament", J.o [("divisions", J.arr
    [ J.o [("id", J.n i1), ("division_name", J.s nm1)]
    , J.o [("id", J.n i2), ("division_name", J.s nm2)] ])])])])

/-! ### Helper lemmas about stripping -/

lemma dropTrailing_idem (p : Char → Bool) (l : List Char) :
    dropTrailing p (dropTrailing p l) = dropTrailing p l := by
  induction l with
  | nil => rfl
  | cons c cs ih =>
    simp only [dropTrailing]
    split
    · rfl
    · rename_i h
      simp only [dropTrailing, ih]
      rw [if_neg h]

lemma length_dropWhile_le (p : Char → Bool) (cs : List Char) :
    (List.dropWhile p cs).length ≤ cs.length := by
  induction cs with
  | nil => simp
  | cons c cs ih =>
    cases h : p c
    · simp [List.dropWhile_cons, h]
    · simp [List.dropWhile_cons, h]
      omega

lemma dropWhile_dropTrailing (p : Char → Bool) (l : List Char)
    (h : List.dropWhile p l = l) :
    List.dropWhile p (dropTrailing p l) = dropTrailing p l := by
  cases l with
  | nil => rfl
  | cons c cs =>
    cases hc : p c
    · simp [dropTrailing, List.dropWhile_cons, hc]
    · exfalso
      rw [List.dropWhile_cons, hc, if_pos rfl] at h
      have h2 := congrArg List.length h
      have h3 := length_dropWhile_le p cs
      simp at h2
      omega

lemma pyStripL_idem (l : List Char) : pyStripL (pyStripL l) = pyStripL l := by
  unfold pyStripL
  rw [dropWhile_dropTrailing isSpaceChar (List.dropWhile isSpaceChar l)
    (List.dropWhile_idempotent isSpaceChar l), dropTrailing_idem]

lemma pyStrip_idem (s : String) : pyStrip (pyStrip s) = pyStrip s :=
  congrArg String.mk (pyStripL_idem s.data)

lemma first_nonempty_stripped (vs : List (Option J)) :
    pyStrip (first_nonempty vs) = first_nonempty vs := by
  induction vs with
  | nil => rfl
  | cons v rest ih =>
    cases v with
    | none => simpa [first_nonempty] using ih
    | some j =>
      cases j with
      | s str =>
        by_cases h : pyStrip str ≠ ""
        · simp [first_nonempty, h, pyStrip_idem]
        · simp [first_nonempty, h, ih]
      | n x => simpa [first_nonempty] using ih
      | b x => simpa [first_nonempty] using ih
      | null => simpa [first_nonempty] using ih
      | arr l => simpa [first_nonempty] using ih
      | o f => simpa [first_nonempty] using ih

lemma etnFallback_stripped (obj : Option J) (ks : List String) :
    pyStrip (etnFallback obj ks) = etnFallback obj ks := by
  induction ks with
  | nil => rfl
  | cons k ks ih =>
    cases hv : objGet obj k with
    | none => simpa [etnFallback, hv] using ih
    | some j =>
      cases j with
      | s str =>
        by_cases h : pyStrip str ≠ ""
        · simp [etnFallback, hv, h, pyStrip_idem]
        · simp [etnFallback, hv, h, ih]
      | n x => simpa [etnFallback, hv] using ih
      | b x => simpa [etnFallback, hv] using ih
      | null => simpa [etnFallback, hv] using ih
      | arr l => simpa [etnFallback, hv] using ih
      | o f => simpa [etnFallback, hv] using ih

lemma extract_home_stripped (m : RawMatch) :
    pyStrip (extract_home m) = extract_home m := by
  cases hht : dictGet m "home_team" with
  | none => simp [extract_home, hht, first_nonempty_stripped]
  | some j =>
    cases j with
    | o ht =>
      cases hnm : pyOrO (dictGet ht "name") (dictGet ht "team_name") with
      | none => simp [extract_home, hht, hnm, first_nonempty_stripped]
      | some w =>
        cases w with
        | s v =>
          by_cases h : pyStrip v ≠ ""
          · simp [extract_home, hht, hnm, h, pyStrip_idem]
          · simp [extract_home, hht, hnm, h, first_nonempty_stripped]
        | n x => simp [extract_home, hht, hnm, first_nonempty_stripped]
        | b x => simp [extract_home, hht, hnm, first_nonempty_stripped]
        | null => simp [extract_home, hht, hnm, first_nonempty_stripped]
        | arr l => simp [extract_home, hht, hnm, first_nonempty_stripped]
        | o f => simp [extract_home, hht, hnm, first_nonempty_stripped]
    | s v => simp [extract_home, hht, first_nonempty_stripped]
    | n x => simp [extract_home, hht, first_nonempty_stripped]
    | b x => simp [extract_home, hht, first_nonempty_stripped]
    | null => simp [extract_home, hht, first_nonempty_stripped]
    | arr l => simp [extract_home, hht, first_nonempty_stripped]

lemma extract_away_stripped (m : RawMatch) :
    pyStrip (extract_away m) = extract_away m := by
  cases hht : dictGet m "away_team" with
  | none => simp [extract_away, hht, first_nonempty_stripped]
  | some j =>
    cases j with
    | o at_ =>
      cases hnm : pyOrO (dictGet at_ "name") (dictGet at_ "team_name") with
      | none => simp [extract_away, hht, hnm, first_nonempty_stripped]
      | some w =>
        cases w with
        | s v =>
          by_cases h : pyStrip v ≠ ""
          · simp [extract_away, hht, hnm, h, pyStrip_idem]
          · simp [extract_away, hht, hnm, h, first_nonempty_stripped]
        | n x => simp [extract_away, hht, hnm, first_nonempty_stripped]
        | b x => simp [extract_away, hht, hnm, first_nonempty_stripped]
        | null => simp [extract_away, hht, hnm, first_nonempty_stripped]
        | arr l => simp [extract_away, hht, hnm, first_nonempty_stripped]
        | o f => simp [extract_away, hht, hnm, first_nonempty_stripped]
    | s v => simp [extract_away, hht, first_nonempty_stripped]
    | n x => simp [extract_away, hht, first_nonempty_stripped]
    | b x => simp [extract_away, hht, first_nonempty_stripped]
    | null => simp [extract_away, hht, first_nonempty_stripped]
    | arr l => simp [extract_away, hht, first_nonempty_stripped]

lemma extract_team_name_stripped (obj : Option J) (ks : List String) :
    pyStrip (extract_team_name obj ks) = extract_team_name obj ks := by
  cases obj with
  | none => simpa [extract_team_name] using etnFallback_stripped none ks
  | some j =>
    cases j with
    | o f =>
      cases hnm : pyOrO (dictGet f "name") (dictGet f "team_name") with
      | none => simpa [extract_team_name, hnm] using etnFallback_stripped (some (J.o f)) ks
      | some w =>
        cases w with
        | s name =>
          by_cases h : pyStrip name ≠ ""
          · simp [extract_team_name, hnm, h, pyStrip_idem]
          · simpa [extract_team_name, hnm, h] using etnFallback_stripped (some (J.o f)) ks
        | n x => simpa [extract_team_name, hnm] using etnFallback_stripped (some (J.o f)) ks
        | b x => simpa [extract_team_name, hnm] using etnFallback_stripped (some (J.o f)) ks
        | null => simpa [extract_team_name, hnm] using etnFallback_stripped (some (J.o f)) ks
        | arr l => simpa [extract_team_name, hnm] using etnFallback_stripped (some (J.o f)) ks
        | o g => simpa [extract_team_name, hnm] using etnFallback_stripped (some (J.o f)) ks
    | s v => simpa [extract_team_name] using etnFallback_stripped (some (J.s v)) ks
    | n x => simpa [extract_team_name] using etnFallback_stripped (some (J.n x)) ks
    | b x => simpa [extract_team_name] using etnFallback_stripped (some (J.b x)) ks
    | null => simpa [extract_team_name] using etnFallback_stripped (some J.null) ks
    | arr l => simpa [extract_team_name] using etnFallback_stripped (some (J.arr l)) ks

/-! ### Claim theorems: field extraction -/

/-- C10: every value produced by the field-extraction functions is already
stripped — stripping it again changes nothing — because `first_nonempty`
and the nested team-name checks return the stripped candidate, never the
raw one; concretely, a candidate `"  X  "` yields `"X"`. -/
theorem extractors_return_stripped :
    (∀ m : RawMatch,
        pyStrip (extract_time m) = extract_time m
      ∧ pyStrip (extract_location m) = extract_location m
      ∧ pyStrip (extract_court m) = extract_court m
      ∧ pyStrip (extract_home m) = extract_home m
      ∧ pyStrip (extract_away m) = extract_away m)
  ∧ (∀ (obj : Option J) (ks : List String),
      pyStrip (extract_team_name obj ks) = extract_team_name obj ks)
  ∧ first_nonempty [some (J.s "  X  ")] = "X" := by
  refine ⟨fun m => ⟨?_, ?_, ?_, ?_, ?_⟩, extract_team_name_stripped, by decide⟩
  · exact first_nonempty_stripped _
  · exact first_nonempty_stripped _
  · exact first_nonempty_stripped _
  · exact extract_home_stripped m
  · exact extract_away_stripped m

/-- C6: the extraction helpers are total by construction (they are plain
Lean functions on `RawMatch`); `first_nonempty` returns the first candidate
that is a string with non-whitespace content (stripped), skipping
non-string and whitespace-only candidates — on `["", "   ", None, "X"]` it
returns `"X"`, and `""` when no candidate qualifies — and `getNestedGo`
(the loop of `get_nested`) returns the default when the path hits an
absent value or a non-dict, or ends on a non-string. -/
theorem extraction_helpers_spec :
    first_nonempty [some (J.s ""), some (J.s "   "), none, some (J.s "X")] = "X"
  ∧ (∀ (str : String) (rest : List (Option J)), pyStrip str ≠ "" →
      first_nonempty (some (J.s str) :: rest) = pyStrip str)
  ∧ (∀ (v : Option J) (rest : List (Option J)),
      (∀ str, v = some (J.s str) → pyStrip str = "") →
      first_nonempty (v :: rest) = first_nonempty rest)
  ∧ (∀ vs : List (Option J),
      (∀ v ∈ vs, ∀ str, v = some (J.s str) → pyStrip str = "") →
      first_nonempty vs = "")
  ∧ (∀ (df : String) (p : String) (ps : List String),
      getNestedGo df none (p :: ps) = df)
  ∧ (∀ (df : String) (j : J) (p : String) (ps : List String),
      (∀ f, j ≠ J.o f) → getNestedGo df (some j) (p :: ps) = df)
  ∧ (∀ (df : String) (j : J), (∀ str, j ≠ J.s str) → getNestedGo df (some j) [] = df) := by
  have skip : ∀ (v : Option J) (rest : List (Option J)),
      (∀ str, v = some (J.s str) → pyStrip str = "") →
      first_nonempty (v :: rest) = first_nonempty rest := by
    intro v rest hv
    cases v with
    | none => simp [first_nonempty]
    | some j =>
      cases j with
      | s str =>
        have h := hv str rfl
        simp [first_nonempty, h]
      | n x => simp [first_nonempty]
      | b x => simp [first_nonempty]
      | null => simp [first_nonempty]
      | arr l => simp [first_nonempty]
      | o f => simp [first_nonempty]
  refine ⟨by decide, ?_, skip, ?_, ?_, ?_, ?_⟩
  · intro str rest h
    simp [first_nonempty, h]
  · intro vs hall
    induction vs with
    | nil => rfl
    | cons v rest ih =>
      rw [skip v rest (hall v (List.mem_cons_self v rest))]
      exact ih fun w hw str hws => hall w (List.mem_cons_of_mem v hw) str hws
  · intro df p ps
    rfl
  · intro df j p ps hj
    cases j with
    | o f => exact absurd rfl (hj f)
    | s v => rfl
    | n x => rfl
    | b x => rfl
    | null => rfl
    | arr l => rfl
  · intro df j hj
    cases j with
    | s v => exact absurd rfl (hj v)
    | o f => rfl
    | n x => rfl
    | b x => rfl
    | null => rfl
    | arr l => rfl

/-- Witness for `extraction_helpers_spec` at concrete inputs. -/
theorem extraction_helpers_spec_witness :
    first_nonempty [some (J.s " Y ")] = "Y"
  ∧ getNestedGo "dflt" (some (J.n 3)) ["k"] = "dflt" := by
  constructor
  · exact (extraction_helpers_spec.2.1 " Y " [] (by decide)).trans (by decide)
  · exact extraction_helpers_spec.2.2.2.2.2.1 "dflt" (J.n 3) "k" [] (by intro f h; cases h)

/-- C5: `extract_home` prefers the nested `home_team` object — when
`home_team.get("name") or home_team.get("team_name")` (Python `or`) is a
string with non-whitespace content, its stripped value is returned even if
flat keys are present; in every other case — `home_team` absent, present
but not a dict, or a dict whose `name`/`team_name` chain yields nothing,
a non-string, or a whitespace-only string — the flat keys `home_name`,
`homeTeamName`, `team_home_name` are tried in order; symmetrically for
`extract_away`; concretely, nested name `"A"` beats flat `"B"`, a lone
flat `"B"` is returned, total absence gives `""`, and a whitespace-only
nested name falls through to the flat `"B"`. -/
theorem extract_home_away_spec :
    (∀ (m ht : RawMatch) (v : String), dictGet m "home_team" = some (J.o ht) →
      pyOrO (dictGet ht "name") (dictGet ht "team_name") = some (J.s v) →
      pyStrip v ≠ "" → extract_home m = pyStrip v)
  ∧ (∀ m : RawMatch, dictGet m "home_team" = none →
      extract_home m = first_nonempty
        [dictGet m "home_name", dictGet m "homeTeamName", dictGet m "team_home_name"])
  ∧ (∀ (m at_ : RawMatch) (v : String), dictGet m "away_team" = some (J.o at_) →
      pyOrO (dictGet at_ "name") (dictGet at_ "team_name") = some (J.s v) →
      pyStrip v ≠ "" → extract_away m = pyStrip v)
  ∧ (∀ m : RawMatch, dictGet m "away_team" = none →
      extract_away m = first_nonempty
        [dictGet m "away_name", dictGet m "awayTeamName", dictGet m "team_away_name"])
  ∧ extract_home [("home_team", J.o [("name", J.s "A")]), ("home_name", J.s "B")] = "A"
  ∧ extract_home [("home_name", J.s "B")] = "B"
  ∧ extract_home [] = ""
  ∧ extract_away [("away_team", J.o [("name", J.s "A")]), ("away_name", J.s "B")] = "A"
  ∧ extract_away [("away_name", J.s "B")] = "B"
  ∧ extract_away [] = ""
  ∧ (∀ (m : RawMatch) (j : J), dictGet m "home_team" = some j → (∀ f, j ≠ J.o f) →
      extract_home m = first_nonempty
        [dictGet m "home_name", dictGet m "homeTeamName", dictGet m "team_home_name"])
  ∧ (∀ (m ht : RawMatch), dictGet m "home_team" = some (J.o ht) →
      (∀ v, pyOrO (dictGet ht "name") (dictGet ht "team_name") = some (J.s v) →
        pyStrip v = "") →
      extract_home m = first_nonempty
        [dictGet m "home_name", dictGet m "homeTeamName", dictGet m "team_home_name"])
  ∧ (∀ (m : RawMatch) (j : J), dictGet m "away_team" = some j → (∀ f, j ≠ J.o f) →
      extract_away m = first_nonempty
        [dictGet m "away_name", dictGet m "awayTeamName", dictGet m "team_away_name"])
  ∧ (∀ (m at_ : RawMatch), dictGet m "away_team" = some (J.o at_) →
      (∀ v, pyOrO (dictGet at_ "name") (dictGet at_ "team_name") = some (J.s v) →
        pyStrip v = "") →
      extract_away m = first_nonempty
        [dictGet m "away_name", dictGet m "awayTeamName", dictGet m "team_away_name"])
  ∧ extract_home [("home_team", J.o [("name", J.s "  ")]), ("home_name", J.s "B")] = "B"
  ∧ extract_away [("away_team", J.s "not a dict"), ("away_name", J.s "B")] = "B" := by
  refine ⟨?_, ?_, ?_, ?_, by decide, by decide, by decide, by decide, by decide, by decide,
    ?_, ?_, ?_, ?_, by decide, by decide⟩
  · intro m ht v h1 h2 h3
    simp [extract_home, h1, h2, h3]
  · intro m h1
    simp [extract_home, h1]
  · intro m at_ v h1 h2 h3
    simp [extract_away, h1, h2, h3]
  · intro m h1
    simp [extract_away, h1]
  · intro m j h1 h2
    cases j with
    | o f => exact absurd rfl (h2 f)
    | s v => simp [extract_home, h1]
    | n x => simp [extract_home, h1]
    | b x => simp [extract_home, h1]
    | null => simp [extract_home, h1]
    | arr l => simp [extract_home, h1]
  · intro m ht h1 h2
    cases hnm : pyOrO (dictGet ht "name") (dictGet ht "team_name") with
    | none => simp [extract_home, h1, hnm]
    | some w =>
      cases w with
      | s v =>
        have hv := h2 v hnm
        simp [extract_home, h1, hnm, hv]
      | n x => simp [extract_home, h1, hnm]
      | b x => simp [extract_home, h1, hnm]
      | null => simp [extract_home, h1, hnm]
      | arr l => simp [extract_home, h1, hnm]
      | o f => simp [extract_home, h1, hnm]
  · intro m j h1 h2
    cases j with
    | o f => exact absurd rfl (h2 f)
    | s v => simp [extract_away, h1]
    | n x => simp [extract_away, h1]
    | b x => simp [extract_away, h1]
    | null => simp [extract_away, h1]
    | arr l => simp [extract_away, h1]
  · intro m at_ h1 h2
    cases hnm : pyOrO (dictGet at_ "name") (dictGet at_ "team_name") with
    | none => simp [extract_away, h1, hnm]
    | some w =>
      cases w with
      | s v =>
        have hv := h2 v hnm
        simp [extract_away, h1, hnm, hv]
      | n x => simp [extract_away, h1, hnm]
      | b x => simp [extract_away, h1, hnm]
      | null => simp [extract_away, h1, hnm]
      | arr l => simp [extract_away, h1, hnm]
      | o f => simp [extract_away, h1, hnm]

/-- Witness for `extract_home_away_spec`: the nested `team_name` fallback
inside `home_team` (stripped), and the whitespace-only nested name falling
through to the flat key. -/
theorem extract_home_away_spec_witness :
    extract_home [("home_team", J.o [("team_name", J.s " T ")]), ("home_name", J.s "B")] = "T"
  ∧ extract_home [("home_team", J.o [("name", J.s "  ")]), ("home_name", J.s "B")]
      = first_nonempty
          [ dictGet [("home_team", J.o [("name", J.s "  ")]), ("home_name", J.s "B")] "home_name"
          , dictGet [("home_team", J.o [("name", J.s "  ")]), ("home_name", J.s "B")] "homeTeamName"
          , dictGet [("home_team", J.o [("name", J.s "  ")]), ("home_name", J.s "B")] "team_home_name" ] := by
  constructor
  · exact (extract_home_away_spec.1
      [("home_team", J.o [("team_name", J.s " T ")]), ("home_name", J.s "B")]
      [("team_name", J.s " T ")] " T " rfl rfl (by decide)).trans (by decide)
  · exact extract_home_away_spec.2.2.2.2.2.2.2.2.2.2.2.1
      [("home_team", J.o [("name", J.s "  ")]), ("home_name", J.s "B")]
      [("name", J.s "  ")] rfl
      (by
        intro v hv
        simp [pyOrO, truthyO, truthy, dictGet] at hv
        subst hv
        decide)

/-! ### Helper lemmas about the identifier parser -/

lemma startsWithL_append (p rest : List Char) : startsWithL p (p ++ rest) = true := by
  induction p with
  | nil => rfl
  | cons c cs ih => simp [startsWithL, ih]

lemma takeWhile_append_stop (p : Char → Bool) (ds : List Char) (c : Char) (t : List Char)
    (hds : ds.all p = true) (hc : p c = false) :
    (ds ++ c :: t).takeWhile p = ds := by
  induction ds with
  | nil => simp [List.takeWhile_cons, hc]
  | cons d ds ih =>
    simp only [List.all_cons, Bool.and_eq_true] at hds
    simp [List.takeWhile_cons, hds.1, ih hds.2]

lemma matchEventAt_here (ds post : List Char) (h1 : ds ≠ [])
    (h2 : ds.all Char.isDigit = true) :
    matchEventAt (eventPat ++ (ds ++ '/' :: post)) = some (digitsVal ds) := by
  have he : ds.isEmpty = false := by
    cases ds
    · exact absurd rfl h1
    · rfl
  simp only [matchEventAt, startsWithL_append, if_true, List.drop_left,
    takeWhile_append_stop Char.isDigit ds '/' post h2 (by decide), he]
  simp

lemma findEventId_of_here (cs : List Char) (n : Nat) (h : matchEventAt cs = some n) :
    findEventId cs = some n := by
  cases cs with
  | nil =>
    rw [show matchEventAt [] = none from by decide] at h
    cases h
  | cons c cs => simp [findEventId, h]

lemma findEventId_append_some (pre tail : List Char) (n : Nat)
    (h : findEventId tail = some n) :
    ∃ m, findEventId (pre ++ tail) = some m := by
  induction pre with
  | nil => exact ⟨n, h⟩
  | cons c pre ih =>
    obtain ⟨m, hm⟩ := ih
    rw [List.cons_append]
    cases hma : matchEventAt (c :: (pre ++ tail)) with
    | some k => exact ⟨k, by simp [findEventId, hma]⟩
    | none => exact ⟨m, by simp [findEventId, hma, hm]⟩

/-- C7: `parse_event_id` extracts the digits of a `/event/<digits>/`
segment when one is present anywhere in the string; otherwise, when the
stripped string consists solely of digits, it returns their value;
every other string fails (`none`, modelling the raised `ValueError`).
It is a pure function of the character list — no network is involved. -/
theorem parse_event_id_spec :
    (∀ ds post : List Char, ds ≠ [] → ds.all Char.isDigit = true →
      parseEventIdL (eventPat ++ (ds ++ '/' :: post)) = some (digitsVal ds))
  ∧ (∀ pre ds post : List Char, ds ≠ [] → ds.all Char.isDigit = true →
      ∃ n, parseEventIdL (pre ++ (eventPat ++ (ds ++ '/' :: post))) = some n)
  ∧ (∀ cs : List Char, findEventId cs = none → pyStripL cs ≠ [] →
      (pyStripL cs).all Char.isDigit = true →
      parseEventIdL cs = some (digitsVal (pyStripL cs)))
  ∧ (∀ cs : List Char, findEventId cs = none →
      (pyStripL cs = [] ∨ (pyStripL cs).all Char.isDigit = false) →
      parseEventIdL cs = none)
  ∧ (∀ s : String, parse_event_id s = parseEventIdL s.data)
  ∧ parse_event_id "https://bracketteam.com/event/6489/2025_Fall_Tip_Off/schedules"
      = some 6489 := by
  refine ⟨?_, ?_, ?_, ?_, fun s => rfl, by decide⟩
  · intro ds post h1 h2
    have hf := findEventId_of_here _ _ (matchEventAt_here ds post h1 h2)
    simp [parseEventIdL, hf]
  · intro pre ds post h1 h2
    have hf := findEventId_of_here _ _ (matchEventAt_here ds post h1 h2)
    obtain ⟨m, hm⟩ :=
      findEventId_append_some pre (eventPat ++ (ds ++ '/' :: post)) (digitsVal ds) hf
    exact ⟨m, by simp [parseEventIdL, hm]⟩
  · intro cs h1 h2 h3
    have he : (pyStripL cs).isEmpty = false := by
      cases hp : pyStripL cs
      · exact absurd hp h2
      · rfl
    simp [parseEventIdL, h1, he, h3]
  · intro cs h1 hbad
    rcases hbad with hnil | hall
    · simp [parseEventIdL, h1, hnil]
    · have he : (pyStripL cs).all Char.isDigit = false := hall
      simp [parseEventIdL, h1, he]

/-- Witness for `parse_event_id_spec`: the URL branch on `/event/42/` and
the digits branch on `" 77 "`. -/
theorem parse_event_id_spec_witness :
    parseEventIdL (eventPat ++ (['4', '2'] ++ '/' :: [])) = some 42
  ∧ parseEventIdL " 77 ".data = some 77 := by
  constructor
  · exact (parse_event_id_spec.1 ['4', '2'] [] (by decide) (by decide)).trans (by decide)
  · exact (parse_event_id_spec.2.2.1 " 77 ".data (by decide) (by decide) (by decide)).trans
      (by decide)

/-! ### Helper lemmas about the retry loop -/

lemma getJsonGo_step_exn (o : Nat → Outcome) (k k' a : Nat) (d : ℚ)
    (hk : k = k' + 1) (h : o a = .exn) :
    getJsonGo o k a d =
      ((getJsonGo o k' (a + 1) (d * BACKOFF)).1,
        d :: (getJsonGo o k' (a + 1) (d * BACKOFF)).2.1,
        (getJsonGo o k' (a + 1) (d * BACKOFF)).2.2 + 1) := by
  subst hk
  simp only [getJsonGo, h]

lemma getJsonGo_step_retry (o : Nat → Outcome) (k k' a : Nat) (d : ℚ)
    (st : Nat) (body : Option J) (hk : k = k' + 1) (h : o a = .resp st body)
    (hr : retryStatus st = true) :
    getJsonGo o k a d =
      ((getJsonGo o k' (a + 1) (d * BACKOFF)).1,
        d :: (getJsonGo o k' (a + 1) (d * BACKOFF)).2.1,
        (getJsonGo o k' (a + 1) (d * BACKOFF)).2.2 + 1) := by
  subst hk
  simp only [getJsonGo, h]
  simp [hr]

lemma getJsonGo_stop_exn (o : Nat → Outcome) (a : Nat) (d : ℚ) (h : o a = .exn) :
    getJsonGo o 0 a d = (none, [], 1) := by
  simp only [getJsonGo, h]

lemma getJsonGo_stop_retry (o : Nat → Outcome) (a : Nat) (d : ℚ)
    (st : Nat) (body : Option J) (h : o a = .resp st body)
    (hr : retryStatus st = true) :
    getJsonGo o 0 a d = (none, [], 1) := by
  simp only [getJsonGo, h]
  simp [hr]

lemma getJsonGo_ok (o : Nat → Outcome) (k a : Nat) (d : ℚ)
    (st : Nat) (body : Option J) (h : o a = .resp st body)
    (hr : retryStatus st = false) (hok : st < 400) :
    getJsonGo o k a d = (body, [], 1) := by
  cases k with
  | zero =>
    simp only [getJsonGo, h]
    simp [hr, hok]
  | succ k =>
    simp only [getJsonGo, h]
    simp [hr, hok]

lemma getJsonGo_notok (o : Nat → Outcome) (k a : Nat) (d : ℚ)
    (st : Nat) (body : Option J) (h : o a = .resp st body)
    (hr : retryStatus st = false) (hok : ¬st < 400) :
    getJsonGo o k a d = (none, [], 1) := by
  cases k with
  | zero =>
    simp only [getJsonGo, h]
    simp [hr, hok]
  | succ k =>
    simp only [getJsonGo, h]
    simp [hr, hok]

lemma getJsonGo_zero_shape (o : Nat → Outcome) (a : Nat) (d : ℚ) :
    (getJsonGo o 0 a d).2.1 = [] ∧ (getJsonGo o 0 a d).2.2 = 1 := by
  rcases h : o a with _ | ⟨st, body⟩
  · simp [getJsonGo_stop_exn o a d h]
  · cases hr : retryStatus st
    · by_cases hok : st < 400
      · simp [getJsonGo_ok o 0 a d st body h hr hok]
      · simp [getJsonGo_notok o 0 a d st body h hr hok]
    · simp [getJsonGo_stop_retry o a d st body h hr]

lemma getJsonGo_attempts_le (o : Nat → Outcome) :
    ∀ (k a : Nat) (d : ℚ), (getJsonGo o k a d).2.2 ≤ k + 1 := by
  intro k
  induction k with
  | zero =>
    intro a d
    exact le_of_eq (getJsonGo_zero_shape o a d).2
  | succ k ih =>
    intro a d
    rcases h : o a with _ | ⟨st, body⟩
    · rw [getJsonGo_step_exn o (k + 1) k a d rfl h]
      have := ih (a + 1) (d * BACKOFF)
      simp
      omega
    · cases hr : retryStatus st
      · by_cases hok : st < 400
        · rw [getJsonGo_ok o (k + 1) a d st body h hr hok]
          simp
        · rw [getJsonGo_notok o (k + 1) a d st body h hr hok]
          simp
      · rw [getJsonGo_step_retry o (k + 1) k a d st body rfl h hr]
        have := ih (a + 1) (d * BACKOFF)
        simp
        omega

lemma getJsonGo_attempts_pos (o : Nat → Outcome) :
    ∀ (k a : Nat) (d : ℚ), 1 ≤ (getJsonGo o k a d).2.2 := by
  intro k
  induction k with
  | zero =>
    intro a d
    exact le_of_eq (getJsonGo_zero_shape o a d).2.symm
  | succ k ih =>
    intro a d
    rcases h : o a with _ | ⟨st, body⟩
    · rw [getJsonGo_step_exn o (k + 1) k a d rfl h]
      simp
    · cases hr : retryStatus st
      · by_cases hok : st < 400
        · rw [getJsonGo_ok o (k + 1) a d st body h hr hok]
        · rw [getJsonGo_notok o (k + 1) a d st body h hr hok]
      · rw [getJsonGo_step_retry o (k + 1) k a d st body rfl h hr]
        simp

lemma getJsonGo_one_delays (o : Nat → Outcome) (a : Nat) (d : ℚ) :
    (getJsonGo o 1 a d).2.1 = [] ∨ (getJsonGo o 1 a d).2.1 = [d] := by
  rcases h : o a with _ | ⟨st, body⟩
  · right
    rw [getJsonGo_step_exn o 1 0 a d rfl h]
    simp [(getJsonGo_zero_shape o (a + 1) (d * BACKOFF)).1]
  · cases hr : retryStatus st
    · left
      by_cases hok : st < 400
      · rw [getJsonGo_ok o 1 a d st body h hr hok]
      · rw [getJsonGo_notok o 1 a d st body h hr hok]
    · right
      rw [getJsonGo_step_retry o 1 0 a d st body rfl h hr]
      simp [(getJsonGo_zero_shape o (a + 1) (d * BACKOFF)).1]

lemma getJsonGo_two_delays (o : Nat → Outcome) (a : Nat) (d : ℚ) :
    (getJsonGo o 2 a d).2.1 = [] ∨ (getJsonGo o 2 a d).2.1 = [d]
  ∨ (getJsonGo o 2 a d).2.1 = [d, d * BACKOFF] := by
  rcases h : o a with _ | ⟨st, body⟩
  · rw [getJsonGo_step_exn o 2 1 a d rfl h]
    rcases getJsonGo_one_delays o (a + 1) (d * BACKOFF) with h1 | h1
    · right; left
      simp [h1]
    · right; right
      simp [h1]
  · cases hr : retryStatus st
    · left
      by_cases hok : st < 400
      · rw [getJsonGo_ok o 2 a d st body h hr hok]
      · rw [getJsonGo_notok o 2 a d st body h hr hok]
    · rw [getJsonGo_step_retry o 2 1 a d st body rfl h hr]
      rcases getJsonGo_one_delays o (a + 1) (d * BACKOFF) with h1 | h1
      · right; left
        simp [h1]
      · right; right
        simp [h1]

/-- C2: `get_json` retries 429, 5xx and transport failures up to 3 total
attempts, sleeping `1.5` then `2.25` between attempts; the first success
returns the parsed body immediately.  Script `[500, 500, success]`:
2 sleeps (`3/2` then `9/4`) and the parsed result after 3 attempts.
Script `[500, 500, 500]`: failure (`none`) after the 3rd attempt, with no
sleep after the final failed attempt. -/
theorem get_json_retry_spec :
    (∀ (o : Nat → Outcome) (b1 b2 : Option J) (a : J),
      o 1 = .resp 500 b1 → o 2 = .resp 500 b2 → o 3 = .resp 200 (some a) →
      get_json o = (some a, [3/2, 9/4], 3))
  ∧ (∀ (o : Nat → Outcome) (b1 b2 b3 : Option J),
      o 1 = .resp 500 b1 → o 2 = .resp 500 b2 → o 3 = .resp 500 b3 →
      get_json o = (none, [3/2, 9/4], 3))
  ∧ (∀ o : Nat → Outcome, (get_json o).2.2 ≤ MAX_RETRIES)
  ∧ (∀ o : Nat → Outcome, (get_json o).2.1 = [] ∨ (get_json o).2.1 = [3/2]
      ∨ (get_json o).2.1 = [3/2, 9/4])
  ∧ (∀ (o : Nat → Outcome) (st : Nat) (body : Option J),
      o 1 = .resp st body → retryStatus st = false → st < 400 →
      get_json o = (body, [], 1))
  ∧ (∀ o : Nat → Outcome,
      (o 1 = .exn ∨ ∃ st body, o 1 = .resp st body ∧ retryStatus st = true) →
      2 ≤ (get_json o).2.2 ∧ ∃ tl, (get_json o).2.1 = 3/2 :: tl)
  ∧ retryStatus 429 = true
  ∧ (∀ st : Nat, 500 ≤ st → st < 600 → retryStatus st = true) := by
  have hg : ∀ o : Nat → Outcome, get_json o = getJsonGo o 2 1 BACKOFF := fun o => rfl
  refine ⟨?_, ?_, ?_, ?_, ?_, ?_, by decide, ?_⟩
  · intro o b1 b2 a h1 h2 h3
    rw [hg, getJsonGo_step_retry o 2 1 1 BACKOFF 500 b1 rfl h1 (by decide),
      getJsonGo_step_retry o 1 0 2 (BACKOFF * BACKOFF) 500 b2 rfl h2 (by decide),
      getJsonGo_ok o 0 3 (BACKOFF * BACKOFF * BACKOFF) 200 (some a) h3 (by decide) (by decide)]
    norm_num [BACKOFF]
  · intro o b1 b2 b3 h1 h2 h3
    rw [hg, getJsonGo_step_retry o 2 1 1 BACKOFF 500 b1 rfl h1 (by decide),
      getJsonGo_step_retry o 1 0 2 (BACKOFF * BACKOFF) 500 b2 rfl h2 (by decide),
      getJsonGo_stop_retry o 3 (BACKOFF * BACKOFF * BACKOFF) 500 b3 h3 (by decide)]
    norm_num [BACKOFF]
  · intro o
    rw [hg]
    exact (getJsonGo_attempts_le o 2 1 BACKOFF).trans (by norm_num [MAX_RETRIES])
  · intro o
    rw [hg]
    have h2 := getJsonGo_two_delays o 1 BACKOFF
    have hb : BACKOFF * BACKOFF = 9/4 := by norm_num [BACKOFF]
    rw [hb] at h2
    simpa [BACKOFF] using h2
  · intro o st body h1 hr hok
    rw [hg, getJsonGo_ok o 2 1 BACKOFF st body h1 hr hok]
  · intro o h1
    have hstep : get_json o =
        ((getJsonGo o 1 2 (BACKOFF * BACKOFF)).1,
          BACKOFF :: (getJsonGo o 1 2 (BACKOFF * BACKOFF)).2.1,
          (getJsonGo o 1 2 (BACKOFF * BACKOFF)).2.2 + 1) := by
      rcases h1 with h1 | ⟨st, body, h1, hr⟩
      · rw [hg, getJsonGo_step_exn o 2 1 1 BACKOFF rfl h1]
      · rw [hg, getJsonGo_step_retry o 2 1 1 BACKOFF st body rfl h1 hr]
    rw [hstep]
    constructor
    · have := getJsonGo_attempts_pos o 1 2 (BACKOFF * BACKOFF)
      simp
      omega
    · exact ⟨(getJsonGo o 1 2 (BACKOFF * BACKOFF)).2.1, by norm_num [BACKOFF]⟩
  · intro st h5 h6
    simp [retryStatus]
    omega

/-- Witness for `get_json_retry_spec`: the `[500, 500, success]` script. -/
theorem get_json_retry_spec_witness :
    get_json (fun n => if n ≤ 2 then .resp 500 none else .resp 200 (some J.null))
      = (some J.null, [3/2, 9/4], 3) :=
  get_json_retry_spec.1 (fun n => if n ≤ 2 then .resp 500 none else .resp 200 (some J.null))
    none none J.null rfl rfl rfl

/-- C3: a response whose HTTP status is a success (2xx, hence `resp.ok`)
but whose body fails to parse as JSON makes `get_json` return `None`
immediately: one attempt, no retry, no sleep. -/
theorem get_json_parse_error_spec (o : Nat → Outcome) (st : Nat)
    (h1 : o 1 = .resp st none) (h2 : 200 ≤ st) (h3 : st < 400) :
    get_json o = (none, [], 1) := by
  have hr : retryStatus st = false := by
    simp [retryStatus]
    omega
  exact getJsonGo_ok o 2 1 BACKOFF st none h1 hr h3

/-- Witness for `get_json_parse_error_spec`: status 200 with an
unparseable body. -/
theorem get_json_parse_error_spec_witness :
    get_json (fun _ => .resp 200 none) = (none, [], 1) :=
  get_json_parse_error_spec (fun _ => .resp 200 none) 200 rfl (by decide) (by decide)

/-! ### Helper lemmas about pagination -/

lemma pageMatchesE_mkResp (l : List J) : pageMatchesE (mkResp l) = .ok l := by
  cases l <;> rfl

lemma iter_matches_failed_fetch (rest : List (Option J)) :
    iter_matches (none :: rest) = .ok ([], 1) := rfl

lemma iter_matches_empty_page (rest : List (Option J)) :
    iter_matches (mkResp [] :: rest) = .ok ([], 1) := rfl

lemma iter_matches_short (ms : List J) (rest : List (Option J)) (h1 : ms ≠ [])
    (h2 : ms.length < MATCHES_PER_PAGE) :
    iter_matches (mkResp ms :: rest) = .ok (ms, 1) := by
  have he : ms.isEmpty = false := by
    cases ms
    · exact absurd rfl h1
    · rfl
  simp [iter_matches, Bind.bind, Except.bind, pageMatchesE_mkResp, he, h2]

lemma iter_matches_full (ms : List J) (rest : List (Option J)) (h1 : ms ≠ [])
    (h2 : ¬ms.length < MATCHES_PER_PAGE) :
    iter_matches (mkResp ms :: rest)
      = (iter_matches rest).map (fun p => (ms ++ p.1, p.2 + 1)) := by
  have he : ms.isEmpty = false := by
    cases ms
    · exact absurd rfl h1
    · rfl
  cases hrest : iter_matches rest with
  | ok p =>
    simp [iter_matches, Bind.bind, Except.bind, pageMatchesE_mkResp, he, h2, hrest, Except.map]
  | error e =>
    simp [iter_matches, Bind.bind, Except.bind, pageMatchesE_mkResp, he, h2, hrest, Except.map]

lemma length_ne_nil {l : List J} {k : Nat} (h : l.length = k) (hk : k ≠ 0) : l ≠ [] := by
  intro hn
  rw [hn] at h
  simp at h
  omega

/-- C1: the match paginator yields exactly the matches its responses carry,
in page order, and terminates: a failed fetch or an empty page stops it at
once, a page shorter than `MATCHES_PER_PAGE = 20` stops it after being
yielded, and a full page leads to exactly one more fetch.  Hence it never
yields more than was received (the yield is a prefix of the concatenation
of the pages), sizes `[20, 20, 7]` give 47 matches over exactly 3 fetches,
and sizes `[20, 20, 20, 0]` give 60 matches over exactly 4 fetches (the
extra empty-page fetch happens). -/
theorem iter_matches_spec :
    (∀ rest : List (Option J), iter_matches (none :: rest) = .ok ([], 1))
  ∧ (∀ rest : List (Option J), iter_matches (mkResp [] :: rest) = .ok ([], 1))
  ∧ (∀ (ms : List J) (rest : List (Option J)), ms ≠ [] → ms.length < MATCHES_PER_PAGE →
      iter_matches (mkResp ms :: rest) = .ok (ms, 1))
  ∧ (∀ (ms : List J) (rest : List (Option J)), ms ≠ [] → ¬ms.length < MATCHES_PER_PAGE →
      iter_matches (mkResp ms :: rest)
        = (iter_matches rest).map (fun p => (ms ++ p.1, p.2 + 1)))
  ∧ (∀ mss : List (List J), ∃ ys n t, iter_matches (mss.map mkResp) = .ok (ys, n)
      ∧ ys ++ t = mss.flatten ∧ n ≤ mss.length + 1)
  ∧ (∀ (p1 p2 p3 : List J) (rest : List (Option J)),
      p1.length = 20 → p2.length = 20 → p3.length = 7 →
      iter_matches (mkResp p1 :: mkResp p2 :: mkResp p3 :: rest)
        = .ok (p1 ++ (p2 ++ p3), 3))
  ∧ (∀ (p1 p2 p3 : List J) (rest : List (Option J)),
      p1.length = 20 → p2.length = 20 → p3.length = 20 →
      iter_matches (mkResp p1 :: mkResp p2 :: mkResp p3 :: mkResp [] :: rest)
        = .ok (p1 ++ (p2 ++ p3), 4)) := by
  refine ⟨iter_matches_failed_fetch, iter_matches_empty_page, iter_matches_short,
    iter_matches_full, ?_, ?_, ?_⟩
  · intro mss
    induction mss with
    | nil => exact ⟨[], 1, [], rfl, by simp, by simp⟩
    | cons ms mss ih =>
      obtain ⟨ys, n, t, h1, h2, h3⟩ := ih
      by_cases hemp : ms = []
      · subst hemp
        exact ⟨[], 1, mss.flatten, iter_matches_empty_page _, by simp, by simp⟩
      · by_cases hlen : ms.length < MATCHES_PER_PAGE
        · refine ⟨ms, 1, mss.flatten, iter_matches_short ms _ hemp hlen, by simp, by simp⟩
        · refine ⟨ms ++ ys, n + 1, t, ?_, ?_, ?_⟩
          · rw [List.map_cons, iter_matches_full ms _ hemp hlen, h1]
            rfl
          · rw [List.append_assoc, h2]
            simp
          · simp
            omega
  · intro p1 p2 p3 rest h1 h2 h3
    rw [iter_matches_full p1 _ (length_ne_nil h1 (by decide))
        (by rw [h1]; decide),
      iter_matches_full p2 _ (length_ne_nil h2 (by decide)) (by rw [h2]; decide),
      iter_matches_short p3 _ (length_ne_nil h3 (by decide)) (by rw [h3]; decide)]
    rfl
  · intro p1 p2 p3 rest h1 h2 h3
    rw [iter_matches_full p1 _ (length_ne_nil h1 (by decide)) (by rw [h1]; decide),
      iter_matches_full p2 _ (length_ne_nil h2 (by decide)) (by rw [h2]; decide),
      iter_matches_full p3 _ (length_ne_nil h3 (by decide)) (by rw [h3]; decide),
      iter_matches_empty_page rest]
    simp [Except.map]

/-- Witness for `iter_matches_spec`: pages of sizes `[20, 20, 7]` yield all
47 matches over exactly 3 fetches. -/
theorem iter_matches_spec_witness :
    iter_matches [mkResp (List.replicate 20 J.null), mkResp (List.replicate 20 J.null),
        mkResp (List.replicate 7 J.null)]
      = .ok (List.replicate 20 J.null ++ (List.replicate 20 J.null ++ List.replicate 7 J.null), 3) :=
  iter_matches_spec.2.2.2.2.2.1 (List.replicate 20 J.null) (List.replicate 20 J.null)
    (List.replicate 7 J.null) [] (by simp) (by simp) (by simp)

/-! ### Claim theorems: division enumeration -/

lemma dictGet_nil (k : String) : dictGet [] k = none := rfl

/-- C8: `get_divisions` returns the empty list (not a failure) when the
fetch failed or when `content` / `tournament` / `divisions` is absent at
any level; its loop skips records lacking an `id`, and the name prefers a
truthy `division_name`, then a truthy `name`, then the synthesized label
`"Division {id}"`. -/
theorem get_divisions_spec :
    get_divisions none = .ok []
  ∧ (∀ f : List (String × J), dictGet f "content" = none →
      get_divisions (some (J.o f)) = .ok [])
  ∧ (∀ (f c : List (String × J)), dictGet f "content" = some (J.o c) →
      dictGet c "tournament" = none → get_divisions (some (J.o f)) = .ok [])
  ∧ (∀ (f c t : List (String × J)), dictGet f "content" = some (J.o c) →
      dictGet c "tournament" = some (J.o t) → dictGet t "divisions" = none →
      get_divisions (some (J.o f)) = .ok [])
  ∧ (∀ (d : List (String × J)) (ds : List J), dictGet d "id" = none →
      divisionsLoop (J.o d :: ds) = divisionsLoop ds)
  ∧ (∀ (d : List (String × J)) (ds : List J) (i : Int) (nm : String),
      dictGet d "id" = some (J.n i) → dictGet d "division_name" = some (J.s nm) →
      nm ≠ "" →
      divisionsLoop (J.o d :: ds)
        = (divisionsLoop ds).map (fun rest => (i, J.s nm) :: rest))
  ∧ (∀ (d : List (String × J)) (ds : List J) (i : Int) (nm : String),
      dictGet d "id" = some (J.n i) → dictGet d "division_name" = none →
      dictGet d "name" = some (J.s nm) → nm ≠ "" →
      divisionsLoop (J.o d :: ds)
        = (divisionsLoop ds).map (fun rest => (i, J.s nm) :: rest))
  ∧ (∀ (d : List (String × J)) (ds : List J) (i : Int),
      dictGet d "id" = some (J.n i) → dictGet d "division_name" = none →
      dictGet d "name" = none →
      divisionsLoop (J.o d :: ds)
        = (divisionsLoop ds).map
            (fun rest => (i, J.s ("Division " ++ toString i)) :: rest)) := by
  refine ⟨rfl, ?_, ?_, ?_, ?_, ?_, ?_, ?_⟩
  · intro f h
    cases f with
    | nil => rfl
    | cons kv rest =>
      simp [get_divisions, pyOrJD, jOr, truthy, pyGetD, h, Bind.bind, Except.bind,
        divisionsLoop, dictGet_nil]
  · intro f c h1 h2
    cases f with
    | nil => cases h1
    | cons kv rest =>
      simp [get_divisions, pyOrJD, jOr, truthy, pyGetD, h1, h2, Bind.bind, Except.bind,
        divisionsLoop, dictGet_nil]
  · intro f c t h1 h2 h3
    cases f with
    | nil => cases h1
    | cons kv rest =>
      simp [get_divisions, pyOrJD, jOr, truthy, pyGetD, h1, h2, h3, Bind.bind, Except.bind,
        divisionsLoop]
  · intro d ds h
    simp [divisionsLoop, h]
  · intro d ds i nm hid hdn hnm
    cases hds : divisionsLoop ds with
    | ok rest =>
      simp [divisionsLoop, hid, hdn, pyOrJD, jOr, truthy, bne_iff_ne, hnm, pyInt,
        Bind.bind, Except.bind, hds, Except.map]
    | error e =>
      simp [divisionsLoop, hid, hdn, pyOrJD, jOr, truthy, bne_iff_ne, hnm, pyInt,
        Bind.bind, Except.bind, hds, Except.map]
  · intro d ds i nm hid hdn hn hnm
    cases hds : divisionsLoop ds with
    | ok rest =>
      simp [divisionsLoop, hid, hdn, hn, pyOrJD, jOr, truthy, bne_iff_ne, hnm, pyInt,
        Bind.bind, Except.bind, hds, Except.map]
    | error e =>
      simp [divisionsLoop, hid, hdn, hn, pyOrJD, jOr, truthy, bne_iff_ne, hnm, pyInt,
        Bind.bind, Except.bind, hds, Except.map]
  · intro d ds i hid hdn hn
    cases hds : divisionsLoop ds with
    | ok rest =>
      simp [divisionsLoop, hid, hdn, hn, pyOrJD, jOr, truthy, pyStrO, pyStr, pyInt,
        Bind.bind, Except.bind, hds, Except.map]
    | error e =>
      simp [divisionsLoop, hid, hdn, hn, pyOrJD, jOr, truthy, pyStrO, pyStr, pyInt,
        Bind.bind, Except.bind, hds, Except.map]

/-- Witness for `get_divisions_spec`: a record with an id and a
`division_name` (which wins over `name`). -/
theorem get_divisions_spec_witness :
    divisionsLoop [J.o [("id", J.n 4), ("division_name", J.s "U10"), ("name", J.s "x")]]
      = .ok [((4 : Int), J.s "U10")] :=
  (get_divisions_spec.2.2.2.2.2.1
    [("id", J.n 4), ("division_name", J.s "U10"), ("name", J.s "x")] [] 4 "U10"
    rfl rfl (by decide)).trans rfl

/-! ### Helper lemmas about the orchestrator -/

lemma rowsForMatches_mem (nm : String) :
    ∀ (ms : List J) (rs : List ScheduleRow), rowsForMatches nm ms = .ok rs →
      ∀ r ∈ rs, r.division = nm := by
  intro ms
  induction ms with
  | nil =>
    intro rs h r hr
    injection h with h2
    subst h2
    simp at hr
  | cons m ms ih =>
    intro rs h r hr
    cases m with
    | o f =>
      cases hrest : rowsForMatches nm ms with
      | ok rest =>
        simp [rowsForMatches, hrest, Bind.bind, Except.bind] at h
        subst h
        rcases List.mem_cons.mp hr with h1 | h1
        · subst h1
          rfl
        · exact ih rest hrest r h1
      | error e => simp [rowsForMatches, hrest, Bind.bind, Except.bind] at h
    | s v => simp [rowsForMatches] at h
    | n x => simp [rowsForMatches] at h
    | b x => simp [rowsForMatches] at h
    | null => simp [rowsForMatches] at h
    | arr l => simp [rowsForMatches] at h

lemma rowsForMatches_map (nm : String) (l : List RawMatch) :
    rowsForMatches nm (l.map J.o) = .ok (l.map (mkRow nm)) := by
  induction l with
  | nil => rfl
  | cons m l ih => simp [rowsForMatches, ih, Bind.bind, Except.bind]

lemma rowsForDivisions_mem (schedule : Int → List (Option J)) :
    ∀ (divs : List (Int × J)) (rows : List ScheduleRow),
      rowsForDivisions schedule divs = .ok rows →
      ∀ r ∈ rows, ∃ dv ∈ divs, r.division = pyStr dv.2 := by
  intro divs
  induction divs with
  | nil =>
    intro rows h r hr
    injection h with h2
    subst h2
    simp at hr
  | cons dv ds ih =>
    intro rows h r hr
    cases hit : iter_matches (schedule dv.1) with
    | error e => simp [rowsForDivisions, hit, Bind.bind, Except.bind] at h
    | ok p =>
      cases hrm : rowsForMatches (pyStr dv.2) p.1 with
      | error e => simp [rowsForDivisions, hit, hrm, Bind.bind, Except.bind] at h
      | ok rows1 =>
        cases hrd : rowsForDivisions schedule ds with
        | error e => simp [rowsForDivisions, hit, hrm, hrd, Bind.bind, Except.bind] at h
        | ok rest =>
          simp [rowsForDivisions, hit, hrm, hrd, Bind.bind, Except.bind] at h
          subst h
          rcases List.mem_append.mp hr with h1 | h1
          · exact ⟨dv, List.mem_cons_self dv ds, rowsForMatches_mem (pyStr dv.2) p.1 rows1 hrm r h1⟩
          · obtain ⟨dv', hdv', hre⟩ := ih rest hrd r h1
            exact ⟨dv', List.mem_cons_of_mem dv hdv', hre⟩

lemma get_divisions_twoDiv (i1 i2 : Int) (nm1 nm2 : String)
    (h1 : nm1 ≠ "") (h2 : nm2 ≠ "") :
    get_divisions (twoDivFetch i1 nm1 i2 nm2) = .ok [(i1, J.s nm1), (i2, J.s nm2)] := by
  simp [get_divisions, twoDivFetch, pyOrJD, jOr, truthy, pyGetD, dictGet, divisionsLoop,
    pyInt, Bind.bind, Except.bind, bne_iff_ne, h1, h2]

/-! ### Claim theorems: the orchestrator -/

/-- C9: every emitted row's `division` field is the display name of the
division whose pagination produced it, and rows appear in division order,
pages in fetch order; a tournament of 2 divisions with one page of 3
matches each yields exactly the 6 rows `m1 × nm1` then `m2 × nm2`,
regardless of the internal division ids. -/
theorem run_rows_spec :
    (∀ (eventRef : String) (cliToken envToken : Option String) (tf : Option J)
        (schedule : Int → List (Option J)) (divs : List (Int × J))
        (rows : List ScheduleRow),
      get_divisions tf = .ok divs →
      run eventRef cliToken envToken tf schedule = .ok (0, rows) →
      ∀ r ∈ rows, ∃ dv ∈ divs, r.division = pyStr dv.2)
  ∧ (∀ (i1 i2 : Int) (nm1 nm2 : String) (m1 m2 : List RawMatch)
        (schedule : Int → List (Option J)),
      nm1 ≠ "" → nm2 ≠ "" → m1.length = 3 → m2.length = 3 →
      schedule i1 = [mkResp (m1.map J.o)] → schedule i2 = [mkResp (m2.map J.o)] →
      run "6489" none none (twoDivFetch i1 nm1 i2 nm2) schedule
          = .ok (0, m1.map (mkRow nm1) ++ m2.map (mkRow nm2))
        ∧ (m1.map (mkRow nm1) ++ m2.map (mkRow nm2)).length = 6
        ∧ (∀ r ∈ m1.map (mkRow nm1), r.division = nm1)
        ∧ (∀ r ∈ m2.map (mkRow nm2), r.division = nm2)) := by
  constructor
  · intro eventRef cliToken envToken tf schedule divs rows hdiv hrun r hr
    cases hp : parse_event_id eventRef with
    | none => simp [run, hp] at hrun
    | some tid =>
      by_cases htok : resolveToken cliToken envToken = ""
      · simp [run, hp, htok] at hrun
      · by_cases hemp : divs.isEmpty
        · simp [run, hp, htok, hdiv, hemp, Bind.bind, Except.bind] at hrun
        · cases hrd : rowsForDivisions schedule divs with
          | error e => simp [run, hp, htok, hdiv, hemp, hrd, Bind.bind, Except.bind] at hrun
          | ok rows' =>
            have : rows' = rows := by
              simp [run, hp, htok, hdiv, hemp, hrd, Bind.bind, Except.bind] at hrun
              exact hrun
            subst this
            exact rowsForDivisions_mem schedule divs rows' hrd r hr
  · intro i1 i2 nm1 nm2 m1 m2 schedule h1 h2 hm1 hm2 hs1 hs2
    have hdv := get_divisions_twoDiv i1 i2 nm1 nm2 h1 h2
    have hne1 : m1.map J.o ≠ [] := by
      have : (m1.map J.o).length = 3 := by simp [hm1]
      exact length_ne_nil this (by decide)
    have hne2 : m2.map J.o ≠ [] := by
      have : (m2.map J.o).length = 3 := by simp [hm2]
      exact length_ne_nil this (by decide)
    have hit1 : iter_matches (schedule i1) = .ok (m1.map J.o, 1) := by
      rw [hs1]
      exact iter_matches_short _ [] hne1 (by simp [hm1, MATCHES_PER_PAGE])
    have hit2 : iter_matches (schedule i2) = .ok (m2.map J.o, 1) := by
      rw [hs2]
      exact iter_matches_short _ [] hne2 (by simp [hm2, MATCHES_PER_PAGE])
    have hrd : rowsForDivisions schedule [(i1, J.s nm1), (i2, J.s nm2)]
        = .ok (m1.map (mkRow nm1) ++ m2.map (mkRow nm2)) := by
      simp [rowsForDivisions, hit1, hit2, Bind.bind, Except.bind, pyStr,
        rowsForMatches_map]
    refine ⟨?_, by simp [hm1, hm2], ?_, ?_⟩
    · simp [run, (by decide : parse_event_id "6489" = some 6489), hdv, hrd,
        (by decide : ¬resolveToken none none = ""), Bind.bind, Except.bind]
    · intro r hr
      obtain ⟨x, _, rfl⟩ := List.mem_map.mp hr
      rfl
    · intro r hr
      obtain ⟨x, _, rfl⟩ := List.mem_map.mp hr
      rfl

/-- Witness for `run_rows_spec`: two concrete divisions with three empty
match records each. -/
theorem run_rows_spec_witness :
    run "6489" none none (twoDivFetch 1 "A" 2 "B")
        (fun i => if i = 1 then [mkResp ((List.replicate 3 ([] : RawMatch)).map J.o)]
          else if i = 2 then [mkResp ((List.replicate 3 ([] : RawMatch)).map J.o)]
          else [])
      = .ok (0, (List.replicate 3 ([] : RawMatch)).map (mkRow "A")
          ++ (List.replicate 3 ([] : RawMatch)).map (mkRow "B")) :=
  (run_rows_spec.2 1 2 "A" "B" (List.replicate 3 []) (List.replicate 3 [])
    (fun i => if i = 1 then [mkResp ((List.replicate 3 ([] : RawMatch)).map J.o)]
      else if i = 2 then [mkResp ((List.replicate 3 ([] : RawMatch)).map J.o)]
      else [])
    (by decide) (by decide) (by simp) (by simp) rfl rfl).1

/-- C4 (code-bug evidence): the source hardcodes a fallback token on line
230, so with no `--token` and no environment token the run does **not**
abort with exit code 2 before any network call — the resolved token is the
hardcoded literal (non-empty), the guard `if not token` is unreachable,
and the run proceeds to the tournament fetch (here: the fetch fails, no
divisions are found, and the run exits 1, a network call having been
attempted). -/
theorem run_missing_token_bug :
    resolveToken none none = DEFAULT_TOKEN
  ∧ DEFAULT_TOKEN ≠ ""
  ∧ run "6489" none none none (fun _ => []) = .ok (1, []) := by
  refine ⟨rfl, by decide, ?_⟩
  simp [run, (by decide : parse_event_id "6489" = some 6489),
    (by decide : ¬resolveToken none none = ""), Bind.bind, Except.bind,
    get_divisions, pyOrJD, pyGetD, divisionsLoop, dictGet]

end ScheduleScraper
